import Mathlib

/-!
Shallow embedding of the PollHub voting core:
the `Poll` mongoose model (src/models/Poll.js) and the vote routes
(src/routes/votes.js).  User identifiers, poll identifiers, vote
identifiers and timestamps are modelled as `Nat`; JS numbers used as
counters are modelled as `Int` so that expressions such as
`Math.max(0, x - 1)` can be written literally as `max 0 (x - 1)`.
Mongoose persistence is modelled as explicit state passing over a
`ServerState` record; `poll.save()` runs the pre-save status hook.
-/

deriving instance DecidableEq for Except

namespace PollHub

/-- Entry of an option's `voters` array (src/models/Poll.js lines 15-24). -/
structure VoterRecord where
  userId : Nat
  votedAt : Nat
deriving Repr, DecidableEq, Inhabited

/-- One poll option (`optionSchema`, src/models/Poll.js lines 3-25).
Named `PollOption` because `Option` is taken in Lean. -/
structure PollOption where
  text : String
  votes : Int
  voters : List VoterRecord
deriving Repr, DecidableEq, Inhabited

/-- Poll lifecycle status enum (src/models/Poll.js lines 69-73). -/
inductive PollStatus where
  | draft
  | active
  | inactive
  | completed
  | cancelled
deriving Repr, DecidableEq, Inhabited

/-- The `settings` subdocument of a poll, restricted to the fields the
voting core reads (src/models/Poll.js lines 118-136). -/
structure PollSettings where
  anonymousVoting : Bool
  maxVotesPerUser : Nat
deriving Repr, DecidableEq, Inhabited

/-- A poll document, restricted to the fields the voting core reads and
writes (src/models/Poll.js lines 27-153). -/
structure Poll where
  title : String
  options : List PollOption
  startDate : Nat
  endDate : Nat
  status : PollStatus
  totalVotes : Int
  uniqueVoters : Int
  votedUsers : List Nat
  settings : PollSettings
deriving Repr, DecidableEq, Inhabited

/-- Replace the element at an index by applying `f`, leaving the list
unchanged when the index is out of range.  Models in-place mutation of
`this.options[optionIndex]`. -/
def modifyAt {α : Type} (f : α → α) : Nat → List α → List α
  | _, [] => []
  | 0, a :: as => f a :: as
  | n + 1, a :: as => a :: modifyAt f n as

/-- The `isActive` virtual (src/models/Poll.js lines 163-168):
`status === active && startDate <= now && endDate > now`. -/
def Poll.isActive (p : Poll) (now : Nat) : Bool :=
  decide (p.status = .active) && decide (p.startDate ≤ now) && decide (p.endDate > now)

/-- Pre-save middleware updating the poll status from the dates
(src/models/Poll.js lines 189-201).  Applied on every `save()`. -/
def statusTransition (now : Nat) (p : Poll) : Poll :=
  if p.status = .active then
    if now < p.startDate then { p with status := .draft }
    else if now > p.endDate then { p with status := .completed }
    else p
  else p

/-- Return shape of `canUserVote` (src/models/Poll.js lines 204-219):
`{canVote: false, reason}` or `{canVote: true}` (no reason field). -/
structure CanVoteResult where
  canVote : Bool
  reason : Option String
deriving Repr, DecidableEq

/-- Count of the user's voter records over all options
(src/models/Poll.js lines 210-212, the `reduce` over `options`). -/
def Poll.userVoteCount (p : Poll) (userId : Nat) : Nat :=
  p.options.foldl
    (fun count o => count + (o.voters.filter (fun v => v.userId == userId)).length) 0

/-- The quota `this.settings.maxVotesPerUser || 1`
(src/models/Poll.js line 207); `0` is falsy in JS. -/
def Poll.maxVotesAllowed (p : Poll) : Nat :=
  if p.settings.maxVotesPerUser = 0 then 1 else p.settings.maxVotesPerUser

/-- The `canUserVote` method (src/models/Poll.js lines 204-219). -/
def Poll.canUserVote (p : Poll) (userId now : Nat) : CanVoteResult :=
  if !(p.isActive now) then
    { canVote := false, reason := some "Poll is not active" }
  else if p.userVoteCount userId ≥ p.maxVotesAllowed then
    { canVote := false,
      reason := some ("Maximum votes per user reached (" ++ toString p.maxVotesAllowed ++ ")") }
  else
    { canVote := true, reason := none }

/-- Mutation of one option by a cast (src/models/Poll.js lines 233-234):
increment its counter and push a voter record. -/
def bumpOption (userId now : Nat) (o : PollOption) : PollOption :=
  { o with votes := o.votes + 1,
           voters := o.voters ++ [{ userId := userId, votedAt := now }] }

/-- Step 3 of the cast mutation (src/models/Poll.js lines 240-243): add
the user to `votedUsers` and increment `uniqueVoters` unless already
present. -/
def castMembership (p : Poll) (userId : Nat) : Poll :=
  if p.votedUsers.contains userId then p
  else { p with votedUsers := p.votedUsers ++ [userId],
                uniqueVoters := p.uniqueVoters + 1 }

/-- Mutation body of `addVote` (src/models/Poll.js lines 232-243):
update the target option, increment `totalVotes`, then the membership
step. -/
def castApply (p : Poll) (userId now i : Nat) : Poll :=
  castMembership
    { p with options := modifyAt (bumpOption userId now) i p.options,
             totalVotes := p.totalVotes + 1 } userId

/-- The `addVote` method (src/models/Poll.js lines 222-246).  A thrown
`Error(message)` is modelled as `.error message`; the final
`this.save()` applies the pre-save status hook. -/
def Poll.addVote (p : Poll) (userId now : Nat) (optionIndex : Int) : Except String Poll :=
  if !(p.canUserVote userId now).canVote then
    .error ((p.canUserVote userId now).reason.getD "")
  else if optionIndex < 0 ∨ (p.options.length : Int) ≤ optionIndex then
    .error "Invalid option index"
  else
    .ok (statusTransition now (castApply p userId now optionIndex.toNat))

/-- One entry of the `results` array built by `getResults`
(src/models/Poll.js lines 250-254).  The JS value `0` returned for the
`percentage` of a vote-less poll is rendered as the string `"0"`. -/
structure OptionResult where
  text : String
  votes : Int
  percentage : String
deriving Repr, DecidableEq

/-- Exact-arithmetic model of `x.toFixed(2)` for the nonnegative value
`num / den` (`den > 0`): the number of hundredths is rounded half-up,
as ECMAScript `toFixed` picks the larger candidate on ties, then
rendered with exactly two decimals.  The embedding computes over exact
rationals where the source uses binary doubles. -/
def jsToFixed2 (num den : Nat) : String :=
  let n := (200 * num + den) / (2 * den)
  let ip := n / 100
  let fp := n % 100
  toString ip ++ "." ++ (if fp < 10 then "0" ++ toString fp else toString fp)

/-- Return shape of `getResults` (src/models/Poll.js lines 249-266),
restricted to the fields the claims mention. -/
structure PollResults where
  title : String
  totalVotes : Int
  uniqueVoters : Int
  results : List OptionResult
  status : PollStatus
  endDate : Nat
  hasEnded : Bool
deriving Repr, DecidableEq

/-- The `getResults` method (src/models/Poll.js lines 249-266).
`percentage` is `((votes / totalVotes) * 100).toFixed(2)` when
`totalVotes > 0` and the number `0` (rendered `"0"`) otherwise; the
counters are nonnegative by the schema `min: 0`, hence the `toNat`
coercions are exact on schema-valid polls. -/
def Poll.getResults (p : Poll) (now : Nat) : PollResults :=
  { title := p.title,
    totalVotes := p.totalVotes,
    uniqueVoters := p.uniqueVoters,
    results :=
      p.options.map (fun o =>
        { text := o.text,
          votes := o.votes,
          percentage :=
            if p.totalVotes > 0 then jsToFixed2 (100 * o.votes.toNat) p.totalVotes.toNat
            else "0" }),
    status := p.status,
    endDate := p.endDate,
    hasEnded := decide (now > p.endDate) }

/-- A vote ledger entry (`voteSchema`, the Vote model), restricted to
the fields the voting core reads; `createdAt` is the mongoose
timestamp.  Client metadata (IP, user agent, device) is advisory only
and omitted. -/
structure Vote where
  id : Nat
  pollId : Nat
  userId : Nat
  optionIndex : Int
  optionText : String
  isAnonymous : Bool
  createdAt : Nat
deriving Repr, DecidableEq, Inhabited

/-- The `addVotedPoll` method of the User model (src/server.js lines
316-328, `userSchema.methods.hasVotedForPoll` and
`userSchema.methods.addVotedPoll`): push the poll onto the user's
`votedPolls` only when `hasVotedForPoll` finds no entry with that
pollId.  The `votedPolls` arrays of all users are flattened into one
list of (userId, pollId) pairs, so a user's history entry for a poll is
the membership of that pair; the entries' `votedAt` timestamps are
omitted. -/
def addVotedPoll (history : List (Nat × Nat)) (userId pollId : Nat) : List (Nat × Nat) :=
  if history.contains (userId, pollId) then history else history ++ [(userId, pollId)]

/-- Persistent state visible to the vote routes: the poll collection
(keyed by poll id), the vote ledger, the per-user voted-poll history,
and the next fresh ledger id. -/
structure ServerState where
  polls : List (Nat × Poll)
  votes : List Vote
  userVotedPolls : List (Nat × Nat)
  nextVoteId : Nat
deriving Repr, DecidableEq, Inhabited

/-- `Poll.findById`: first association for the key, if any. -/
def lookupPoll : List (Nat × Poll) → Nat → Option Poll
  | [], _ => none
  | kv :: rest, k => if kv.1 = k then some kv.2 else lookupPoll rest k

/-- `poll.save()` persisted back to the collection: replaces the
document stored under the key, leaving other documents unchanged. -/
def updateAssoc : List (Nat × Poll) → Nat → Poll → List (Nat × Poll)
  | [], _, _ => []
  | kv :: rest, k, v =>
    if kv.1 = k then (k, v) :: updateAssoc rest k v else kv :: updateAssoc rest k v

/-- `Vote.findById`: first ledger entry with the given id, if any. -/
def findVoteById : List Vote → Nat → Option Vote
  | [], _ => none
  | v :: rest, voteId => if v.id = voteId then some v else findVoteById rest voteId

/-- `Vote.countDocuments({pollId, userId, _id: {$ne: voteId}})`
(src/routes/votes.js lines 253-257 and 271-275). -/
def countOtherVotes (votes : List Vote) (pollId userId voteId : Nat) : Nat :=
  (votes.filter (fun w => w.pollId == pollId && w.userId == userId && !(w.id == voteId))).length

/-- The success payload of POST /api/votes/:pollId
(src/routes/votes.js lines 76-84): `{pollId, optionIndex, optionText,
votedAt}`.  The ledger entry's own id is not part of the payload. -/
structure CastResponse where
  pollId : Nat
  optionIndex : Int
  optionText : String
  votedAt : Nat
deriving Repr, DecidableEq

/-- The ledger entry built by the cast route (src/routes/votes.js lines
41-54): a fresh id, the poll and user references, the option index, a
snapshot of the option text, the poll's anonymity setting, and the cast
timestamp. -/
def mkVote (s : ServerState) (pollId userId : Nat) (optionIndex : Int) (now : Nat)
    (poll : Poll) : Vote :=
  { id := s.nextVoteId, pollId := pollId, userId := userId, optionIndex := optionIndex,
    optionText := (poll.options.getD optionIndex.toNat default).text,
    isAnonymous := poll.settings.anonymousVoting, createdAt := now }

/-- HTTP outcome of the cast route: 404, 400, 500, or 201 with payload. -/
inductive CastResult where
  | notFound (message : String)
  | badRequest (message : String)
  | serverError (message : String)
  | created (vote : CastResponse)
deriving Repr, DecidableEq

/-- The POST /api/votes/:pollId handler (src/routes/votes.js lines
14-89), after authentication and input-shape validation.  WebSocket
emits are fire-and-forget external effects and are not part of the
state.  Both `Date.now` readings of one request are the same `now`. -/
def castVoteHandler (s : ServerState) (pollId userId : Nat) (optionIndex : Int)
    (now : Nat) : CastResult × ServerState :=
  match lookupPoll s.polls pollId with
  | none => (.notFound "Poll not found", s)
  | some poll =>
    if !(poll.canUserVote userId now).canVote then
      (.badRequest ((poll.canUserVote userId now).reason.getD ""), s)
    else if optionIndex < 0 ∨ (poll.options.length : Int) ≤ optionIndex then
      (.badRequest "Invalid option selected", s)
    else
      match poll.addVote userId now optionIndex with
      | .error message => (.serverError message, s)
      | .ok poll2 =>
        (.created { pollId := pollId, optionIndex := optionIndex,
                    optionText := (poll.options.getD optionIndex.toNat default).text,
                    votedAt := (mkVote s pollId userId optionIndex now poll).createdAt },
         { polls := updateAssoc s.polls pollId poll2,
           votes := s.votes ++ [mkVote s pollId userId optionIndex now poll],
           userVotedPolls := addVotedPoll s.userVotedPolls userId pollId,
           nextVoteId := s.nextVoteId + 1 })

/-- HTTP outcome of the vote-deletion route: 403, 404, 500, or 200. -/
inductive RetractResult where
  | forbidden (message : String)
  | notFound (message : String)
  | serverError (message : String)
  | ok (message : String)
deriving Repr, DecidableEq

/-- Mutation of one option by a retraction (src/routes/votes.js lines
241-246): floor-decrement its counter and remove every voter record of
the user. -/
def retractOption (userId : Nat) (o : PollOption) : PollOption :=
  { o with votes := max 0 (o.votes - 1),
           voters := o.voters.filter (fun r => !(r.userId == userId)) }

/-- Step of the retraction touching the referenced option
(src/routes/votes.js lines 240-247): applied only when
`poll.options[vote.optionIndex]` is truthy, i.e. the index is in
range. -/
def retractCounters (poll : Poll) (vote : Vote) : Poll :=
  if 0 ≤ vote.optionIndex ∧ vote.optionIndex < (poll.options.length : Int) then
    { poll with options :=
        modifyAt (retractOption vote.userId) vote.optionIndex.toNat poll.options }
  else poll

/-- Floor-decrement of `totalVotes` (src/routes/votes.js line 250). -/
def retractTotal (poll : Poll) : Poll :=
  { poll with totalVotes := max 0 (poll.totalVotes - 1) }

/-- Membership adjustment of the retraction (src/routes/votes.js lines
259-265): when the user has no other ledger votes in this poll, remove
them from `votedUsers` and floor-decrement `uniqueVoters`. -/
def retractMembership (poll : Poll) (userId otherVotes : Nat) : Poll :=
  if otherVotes = 0 then
    { poll with votedUsers := poll.votedUsers.filter (fun u => !(u == userId)),
                uniqueVoters := max 0 (poll.uniqueVoters - 1) }
  else poll

/-- Poll aggregate update performed by DELETE /api/votes/:voteId when
the referenced poll exists (src/routes/votes.js lines 237-267): the
option step, the `totalVotes` step, the membership step, then the
pre-save status hook applied by `poll.save()`. -/
def retractPollUpdate (poll : Poll) (vote : Vote) (otherVotes now : Nat) : Poll :=
  statusTransition now
    (retractMembership (retractTotal (retractCounters poll vote)) vote.userId otherVotes)

/-- The DELETE /api/votes/:voteId handler (src/routes/votes.js lines
225-291).  After the poll update is saved, the handler evaluates
`User.findByIdAndUpdate` when the user has no other remaining votes;
`User` is never imported in src/routes/votes.js, so that reference
throws a ReferenceError which the route's catch turns into a 500, and
the final `Vote.findByIdAndDelete` never runs in that case. -/
def deleteVoteHandler (s : ServerState) (isAdmin : Bool) (voteId : Nat)
    (now : Nat) : RetractResult × ServerState :=
  if !isAdmin then (.forbidden "Admin access required", s)
  else
    match findVoteById s.votes voteId with
    | none => (.notFound "Vote not found", s)
    | some vote =>
      let s1 : ServerState :=
        match lookupPoll s.polls vote.pollId with
        | none => s
        | some poll =>
          let otherVotes := countOtherVotes s.votes vote.pollId vote.userId vote.id
          { s with polls :=
              updateAssoc s.polls vote.pollId (retractPollUpdate poll vote otherVotes now) }
      let userOtherVotes := countOtherVotes s1.votes vote.pollId vote.userId vote.id
      if userOtherVotes = 0 then
        (.serverError "User is not defined", s1)
      else
        (.ok "Vote deleted successfully",
         { s1 with votes := s1.votes.filter (fun w => !(w.id == voteId)) })

/-- Per-option invariant: the `votes` counter equals the number of
voter records (spec, Option invariant). -/
def optionConsistent (o : PollOption) : Prop :=
  o.votes = (o.voters.length : Int)

instance (o : PollOption) : Decidable (optionConsistent o) := by
  unfold optionConsistent; infer_instance

/-- Poll-level invariants of claim C1: conservation of `totalVotes`,
`uniqueVoters == |votedUsers|`, and every option consistent. -/
def pollConsistent (p : Poll) : Prop :=
  p.totalVotes = (p.options.map (fun o => o.votes)).sum ∧
  p.uniqueVoters = (p.votedUsers.length : Int) ∧
  ∀ o ∈ p.options, optionConsistent o

instance (p : Poll) : Decidable (pollConsistent p) := by
  unfold pollConsistent; infer_instance

/-- State-wide form of the C1 invariants: every stored poll is
consistent. -/
def stateConsistent (s : ServerState) : Prop :=
  ∀ kp ∈ s.polls, pollConsistent kp.2

instance (s : ServerState) : Decidable (stateConsistent s) := by
  unfold stateConsistent; infer_instance

/-- Default settings used by the concrete test fixtures. -/
def settings1 : PollSettings := { anonymousVoting := false, maxVotesPerUser := 1 }

/-- Settings with a quota of 3, as in the spec's multi-vote scenario. -/
def settings3 : PollSettings := { anonymousVoting := false, maxVotesPerUser := 3 }

/-- Fixture for C1: a completed poll in which user 7 holds two voter
records on option 0 (quota 3), with all C1 invariants satisfied. -/
def pollC1 : Poll :=
  { title := "multi", options := [{ text := "A", votes := 2, voters := [{ userId := 7, votedAt := 1 }, { userId := 7, votedAt := 2 }] }, { text := "B", votes := 0, voters := [] }],
    startDate := 0, endDate := 100, status := .completed,
    totalVotes := 2, uniqueVoters := 1, votedUsers := [7], settings := settings3 }

/-- Fixture for C1: the state holding `pollC1` and user 7's two ledger
entries. -/
def stateC1 : ServerState :=
  { polls := [(1, pollC1)],
    votes := [{ id := 5, pollId := 1, userId := 7, optionIndex := 0, optionText := "A", isAnonymous := false, createdAt := 1 }, { id := 6, pollId := 1, userId := 7, optionIndex := 0, optionText := "A", isAnonymous := false, createdAt := 2 }],
    userVotedPolls := [(7, 1)], nextVoteId := 10 }

/-- Fixture for C7: an active poll whose endDate is exactly 100. -/
def pollC7 : Poll :=
  { title := "window", options := [{ text := "A", votes := 0, voters := [] }, { text := "B", votes := 0, voters := [] }],
    startDate := 0, endDate := 100, status := .active,
    totalVotes := 0, uniqueVoters := 0, votedUsers := [], settings := settings1 }

/-- Fixture for C8: options A with 3 votes and B with 1 vote. -/
def pollAB : Poll :=
  { title := "ab", options := [{ text := "A", votes := 3, voters := [{ userId := 1, votedAt := 1 }, { userId := 2, votedAt := 1 }, { userId := 3, votedAt := 1 }] }, { text := "B", votes := 1, voters := [{ userId := 4, votedAt := 1 }] }],
    startDate := 0, endDate := 100, status := .active,
    totalVotes := 4, uniqueVoters := 4, votedUsers := [1, 2, 3, 4], settings := settings1 }

/-- Fixture for C8: a poll with zero votes. -/
def pollZero : Poll :=
  { title := "zero", options := [{ text := "A", votes := 0, voters := [] }, { text := "B", votes := 0, voters := [] }],
    startDate := 0, endDate := 100, status := .active,
    totalVotes := 0, uniqueVoters := 0, votedUsers := [], settings := settings1 }

/-- Fixture for C9 and the witnesses: a fresh active two-option poll. -/
def pollFresh : Poll :=
  { title := "fresh", options := [{ text := "Red", votes := 0, voters := [] }, { text := "Blue", votes := 0, voters := [] }],
    startDate := 0, endDate := 100, status := .active,
    totalVotes := 0, uniqueVoters := 0, votedUsers := [], settings := settings1 }

/-- Fixture for C9: server state holding only `pollFresh`; the next
ledger id is 42. -/
def stateC9 : ServerState :=
  { polls := [(1, pollFresh)], votes := [], userVotedPolls := [], nextVoteId := 42 }

/-- Fixture for C10: a vote whose optionIndex 9 is out of range for its
two-option poll, and which is its user's only vote there. -/
def voteC10 : Vote :=
  { id := 5, pollId := 1, userId := 7, optionIndex := 9, optionText := "A", isAnonymous := false, createdAt := 1 }

/-- Fixture for C10: the poll referenced by `voteC10`. -/
def pollC10 : Poll :=
  { title := "stale", options := [{ text := "A", votes := 1, voters := [{ userId := 7, votedAt := 1 }] }, { text := "B", votes := 0, voters := [] }],
    startDate := 0, endDate := 100, status := .completed,
    totalVotes := 1, uniqueVoters := 1, votedUsers := [7], settings := settings1 }

/-- Fixture for C10: the state holding `pollC10` and `voteC10`. -/
def stateC10 : ServerState :=
  { polls := [(1, pollC10)], votes := [voteC10], userVotedPolls := [(7, 1)], nextVoteId := 6 }

/-- Fixture: a server state with no polls at all. -/
def emptyState : ServerState :=
  { polls := [], votes := [], userVotedPolls := [], nextVoteId := 0 }

/-- Expected poll document after retracting one of user 7's two votes
from `stateC1`: the option counter drops to 1 while both voter records
are removed. -/
def pollC1retracted : Poll :=
  { pollC1 with options := [{ text := "A", votes := 1, voters := [] }, { text := "B", votes := 0, voters := [] }], totalVotes := 1 }

/-- Expected poll document after user 3 votes for option 0 of
`pollFresh` at time 10. -/
def pollFreshAfter : Poll :=
  { pollFresh with options := [{ text := "Red", votes := 1, voters := [{ userId := 3, votedAt := 10 }] }, { text := "Blue", votes := 0, voters := [] }],
                   totalVotes := 1, uniqueVoters := 1, votedUsers := [3] }

/-- Conclusion package of claim C2: the effects of one successful cast
by `userId` at time `now` on option `i`, relating the pre-state `p` to
the post-state q. -/
def castEffects (p q : Poll) (userId now i : Nat) : Prop :=
  q.options.length = p.options.length ∧
  (q.options.getD i default).votes = (p.options.getD i default).votes + 1 ∧
  (q.options.getD i default).voters =
    (p.options.getD i default).voters ++ [{ userId := userId, votedAt := now }] ∧
  (∀ j : Nat, j ≠ i → q.options.getD j default = p.options.getD j default) ∧
  q.totalVotes = p.totalVotes + 1 ∧
  (userId ∈ p.votedUsers → q.votedUsers = p.votedUsers ∧ q.uniqueVoters = p.uniqueVoters) ∧
  (userId ∉ p.votedUsers →
    q.votedUsers = p.votedUsers ++ [userId] ∧ q.uniqueVoters = p.uniqueVoters + 1)

/-- Fixture for the C1 witness: user 7 holds a single in-range vote. -/
def voteW1 : Vote :=
  { id := 5, pollId := 1, userId := 7, optionIndex := 0, optionText := "A", isAnonymous := false, createdAt := 3 }

/-- Fixture for the C1 witness: the poll referenced by `voteW1`,
satisfying all C1 invariants and the amended side conditions. -/
def pollW1 : Poll :=
  { title := "w1", options := [{ text := "A", votes := 1, voters := [{ userId := 7, votedAt := 3 }] }, { text := "B", votes := 0, voters := [] }],
    startDate := 0, endDate := 100, status := .completed,
    totalVotes := 1, uniqueVoters := 1, votedUsers := [7], settings := settings1 }

/-- Fixture for the C1 witness: the state holding `pollW1` and
`voteW1`. -/
def stateW1 : ServerState :=
  { polls := [(1, pollW1)], votes := [voteW1], userVotedPolls := [(7, 1)], nextVoteId := 6 }

/-- Fixture for the C7 witness: an active poll whose window has not
started at time 2. -/
def pollC7b : Poll :=
  { pollC7 with startDate := 5 }

/-- Expected 201 payload of the C9 witness cast. -/
def respC9 : CastResponse :=
  { pollId := 1, optionIndex := 0, optionText := "Red", votedAt := 10 }

/-- Expected server state after the C9 witness cast. -/
def stateC9after : ServerState :=
  { polls := [(1, pollFreshAfter)],
    votes := [{ id := 42, pollId := 1, userId := 3, optionIndex := 0, optionText := "Red", isAnonymous := false, createdAt := 10 }],
    userVotedPolls := [(3, 1)], nextVoteId := 43 }

end PollHub

namespace PollHub

/-! Helper lemmas about the list operations of the embedding. -/

theorem length_modifyAt {α : Type} (f : α → α) (i : Nat) (l : List α) :
    (modifyAt f i l).length = l.length := by
  induction l generalizing i with
  | nil => cases i <;> rfl
  | cons a as ih =>
    cases i with
    | zero => rfl
    | succ n => simp [modifyAt, ih]

theorem getD_modifyAt_self {α : Type} (f : α → α) (i : Nat) (l : List α) (d : α)
    (h : i < l.length) : (modifyAt f i l).getD i d = f (l.getD i d) := by
  induction l generalizing i with
  | nil => simp at h
  | cons a as ih =>
    cases i with
    | zero => rfl
    | succ n => simpa [modifyAt] using ih n (by simpa using h)

theorem getD_modifyAt_ne {α : Type} (f : α → α) (i j : Nat) (l : List α) (d : α)
    (h : j ≠ i) : (modifyAt f i l).getD j d = l.getD j d := by
  induction l generalizing i j with
  | nil => cases i <;> rfl
  | cons a as ih =>
    cases i with
    | zero =>
      cases j with
      | zero => exact absurd rfl h
      | succ m => simp [modifyAt]
    | succ n =>
      cases j with
      | zero => rfl
      | succ m => simpa [modifyAt] using ih n m (fun hh => h (by omega))

theorem mem_modifyAt {α : Type} (f : α → α) (i : Nat) (l : List α) (d : α) (a : α)
    (ha : a ∈ modifyAt f i l) : (i < l.length ∧ a = f (l.getD i d)) ∨ a ∈ l := by
  induction l generalizing i with
  | nil => simp [modifyAt] at ha
  | cons b bs ih =>
    cases i with
    | zero =>
      rcases List.mem_cons.mp ha with h | h
      · exact Or.inl ⟨by simp, by simpa using h⟩
      · exact Or.inr (List.mem_cons_of_mem _ h)
    | succ n =>
      rcases List.mem_cons.mp ha with h | h
      · exact Or.inr (by simp [h])
      · rcases ih n h with ⟨h1, h2⟩ | h2
        · exact Or.inl ⟨by simpa using Nat.succ_lt_succ h1, by simpa using h2⟩
        · exact Or.inr (List.mem_cons_of_mem _ h2)

theorem sum_map_modifyAt (f : PollOption → PollOption) (g : PollOption → Int)
    (i : Nat) (l : List PollOption) (h : i < l.length) :
    ((modifyAt f i l).map g).sum =
      (l.map g).sum + g (f (l.getD i default)) - g (l.getD i default) := by
  induction l generalizing i with
  | nil => simp at h
  | cons a as ih =>
    cases i with
    | zero =>
      simp [modifyAt]
      ring
    | succ n =>
      have hn := ih n (by simpa using h)
      simp [modifyAt, hn]
      ring

theorem getD_mem {α : Type} (l : List α) (i : Nat) (d : α) (h : i < l.length) :
    l.getD i d ∈ l := by
  induction l generalizing i with
  | nil => simp at h
  | cons a as ih =>
    cases i with
    | zero => simp
    | succ n =>
      simp only [List.getD_cons_succ]
      exact List.mem_cons_of_mem _ (ih n (by simpa using h))

theorem mem_updateAssoc (l : List (Nat × Poll)) (k : Nat) (v : Poll) (kp : Nat × Poll)
    (h : kp ∈ updateAssoc l k v) : kp = (k, v) ∨ kp ∈ l := by
  induction l with
  | nil => simp [updateAssoc] at h
  | cons b bs ih =>
    by_cases hb : b.1 = k
    · simp only [updateAssoc, if_pos hb] at h
      rcases List.mem_cons.mp h with h1 | h1
      · exact Or.inl h1
      · rcases ih h1 with h2 | h2
        · exact Or.inl h2
        · exact Or.inr (List.mem_cons_of_mem _ h2)
    · simp only [updateAssoc, if_neg hb] at h
      rcases List.mem_cons.mp h with h1 | h1
      · exact Or.inr (by simp [h1])
      · rcases ih h1 with h2 | h2
        · exact Or.inl h2
        · exact Or.inr (List.mem_cons_of_mem _ h2)

theorem lookupPoll_mem (l : List (Nat × Poll)) (k : Nat) (p : Poll)
    (h : lookupPoll l k = some p) : (k, p) ∈ l := by
  induction l with
  | nil => simp [lookupPoll] at h
  | cons b bs ih =>
    by_cases hb : b.1 = k
    · simp only [lookupPoll, if_pos hb] at h
      have : (k, p) = b := by
        cases b with
        | mk b1 b2 =>
          simp at hb h
          exact by simp [hb, h]
      simp [this]
    · simp only [lookupPoll, if_neg hb] at h
      exact List.mem_cons_of_mem _ (ih h)

theorem lookupPoll_updateAssoc_self (l : List (Nat × Poll)) (k : Nat) (p v : Poll)
    (h : lookupPoll l k = some p) : lookupPoll (updateAssoc l k v) k = some v := by
  induction l with
  | nil => simp [lookupPoll] at h
  | cons b bs ih =>
    by_cases hb : b.1 = k
    · simp [updateAssoc, if_pos hb, lookupPoll]
    · simp only [updateAssoc, if_neg hb, lookupPoll] at h ⊢
      exact ih h

theorem findVoteById_append_fresh (l : List Vote) (w : Vote) (n : Nat)
    (hl : ∀ v ∈ l, v.id ≠ n) (hw : w.id = n) : findVoteById (l ++ [w]) n = some w := by
  induction l with
  | nil => simp [findVoteById, hw]
  | cons a as ih =>
    have ha : a.id ≠ n := hl a (by simp)
    simp only [List.cons_append, findVoteById, if_neg ha]
    exact ih (fun v hv => hl v (by simp [hv]))

theorem countOtherVotes_append_fresh (l : List Vote) (w : Vote) (pid uid : Nat)
    (hl : ∀ v ∈ l, v.id ≠ w.id) :
    countOtherVotes (l ++ [w]) pid uid w.id =
      (l.filter (fun v => v.pollId == pid && v.userId == uid)).length := by
  unfold countOtherVotes
  rw [List.filter_append]
  have hw : (([w] : List Vote).filter
      (fun v => v.pollId == pid && v.userId == uid && !(v.id == w.id))) = [] := by
    simp
  rw [hw, List.append_nil]
  congr 1
  apply List.filter_congr
  intro v hv
  have hne : v.id ≠ w.id := hl v hv
  simp [hne]

theorem length_filter_not_countP {α : Type} (l : List α) (p : α → Bool) :
    (l.filter (fun x => !(p x))).length + l.countP p = l.length := by
  induction l with
  | nil => rfl
  | cons b bs ih =>
    by_cases hb : p b
    · simp [List.filter_cons, List.countP_cons, hb]
      omega
    · simp [List.filter_cons, List.countP_cons, hb]
      omega

theorem filter_ne_self (l : List Nat) (a : Nat) (h : a ∉ l) :
    l.filter (fun x => !(x == a)) = l := by
  apply List.filter_eq_self.mpr
  intro x hx
  have hxa : x ≠ a := fun he => h (he ▸ hx)
  simp [hxa]

theorem statusTransition_fields (now : Nat) (p : Poll) :
    (statusTransition now p).options = p.options ∧
    (statusTransition now p).totalVotes = p.totalVotes ∧
    (statusTransition now p).uniqueVoters = p.uniqueVoters ∧
    (statusTransition now p).votedUsers = p.votedUsers ∧
    (statusTransition now p).settings = p.settings ∧
    (statusTransition now p).startDate = p.startDate ∧
    (statusTransition now p).endDate = p.endDate := by
  unfold statusTransition
  by_cases h1 : p.status = PollStatus.active <;>
    by_cases h2 : now < p.startDate <;>
    by_cases h3 : now > p.endDate <;>
    simp [h1, h2, h3]

theorem statusTransition_of_ne (now : Nat) (q : Poll)
    (h : q.status ≠ PollStatus.active) : statusTransition now q = q := by
  unfold statusTransition
  rw [if_neg h]

theorem statusTransition_pollConsistent (now : Nat) (p : Poll)
    (h : pollConsistent p) : pollConsistent (statusTransition now p) := by
  obtain ⟨f1, f2, f3, f4, -⟩ := statusTransition_fields now p
  unfold pollConsistent at h ⊢
  rw [f1, f2, f3, f4]
  exact h

/-! Lemmas about the voting operations. -/

theorem isActive_iff (p : Poll) (now : Nat) :
    p.isActive now = true ↔
      (p.status = PollStatus.active ∧ p.startDate ≤ now ∧ now < p.endDate) := by
  unfold Poll.isActive
  simp only [Bool.and_eq_true, decide_eq_true_eq, gt_iff_lt, and_assoc]

theorem reason_strings_ne (n : Nat) :
    ("Maximum votes per user reached (" ++ toString n ++ ")") ≠ "Poll is not active" := by
  intro h
  have hlen := congrArg String.length h
  rw [String.length_append, String.length_append] at hlen
  have h1 : ("Maximum votes per user reached (" : String).length = 32 := rfl
  have h2 : ((")" : String)).length = 1 := rfl
  have h3 : ("Poll is not active" : String).length = 18 := rfl
  omega

theorem addVote_ok (p : Poll) (userId now : Nat) (oi : Int)
    (hc : (p.canUserVote userId now).canVote = true)
    (h0 : 0 ≤ oi) (h1 : oi < (p.options.length : Int)) :
    p.addVote userId now oi = .ok (statusTransition now (castApply p userId now oi.toNat)) := by
  unfold Poll.addVote
  rw [if_neg (by simp [hc]), if_neg (by omega)]

theorem addVote_ok_inv (p : Poll) (userId now : Nat) (oi : Int) (q : Poll)
    (h : p.addVote userId now oi = .ok q) :
    (p.canUserVote userId now).canVote = true ∧
    0 ≤ oi ∧ oi < (p.options.length : Int) ∧
    q = statusTransition now (castApply p userId now oi.toNat) := by
  unfold Poll.addVote at h
  by_cases hcv : (p.canUserVote userId now).canVote = true
  · rw [if_neg (by simp [hcv])] at h
    by_cases hr : oi < 0 ∨ (p.options.length : Int) ≤ oi
    · rw [if_pos hr] at h
      exact absurd h (by simp)
    · rw [if_neg hr] at h
      push_neg at hr
      exact ⟨hcv, hr.1, hr.2, (Except.ok.inj h).symm⟩
  · have hf : (p.canUserVote userId now).canVote = false := by
      revert hcv
      cases (p.canUserVote userId now).canVote <;> simp
    rw [if_pos (by simp [hf])] at h
    exact absurd h (by simp)

theorem castVoteHandler_created_inv (s : ServerState) (pollId userId : Nat) (oi : Int)
    (now : Nat) (resp : CastResponse) (s1 : ServerState) (poll : Poll)
    (hlook : lookupPoll s.polls pollId = some poll)
    (h : castVoteHandler s pollId userId oi now = (.created resp, s1)) :
    (poll.canUserVote userId now).canVote = true ∧
    0 ≤ oi ∧ oi < (poll.options.length : Int) ∧
    resp = { pollId := pollId, optionIndex := oi,
             optionText := (poll.options.getD oi.toNat default).text, votedAt := now } ∧
    s1 = { polls := updateAssoc s.polls pollId
                      (statusTransition now (castApply poll userId now oi.toNat)),
           votes := s.votes ++ [mkVote s pollId userId oi now poll],
           userVotedPolls := addVotedPoll s.userVotedPolls userId pollId,
           nextVoteId := s.nextVoteId + 1 } := by
  simp only [castVoteHandler, hlook] at h
  by_cases hcv : (poll.canUserVote userId now).canVote = true
  · rw [if_neg (by simp [hcv])] at h
    by_cases hr : oi < 0 ∨ (poll.options.length : Int) ≤ oi
    · rw [if_pos hr] at h
      exact absurd h (by simp)
    · rw [if_neg hr] at h
      push_neg at hr
      rw [addVote_ok poll userId now oi hcv hr.1 hr.2] at h
      dsimp only at h
      simp only [Prod.mk.injEq, CastResult.created.injEq] at h
      exact ⟨hcv, hr.1, hr.2, h.1.symm, h.2.symm⟩
  · have hf : (poll.canUserVote userId now).canVote = false := by
      revert hcv
      cases (poll.canUserVote userId now).canVote <;> simp
    rw [if_pos (by simp [hf])] at h
    exact absurd h (by simp)

theorem castMembership_pollConsistent (p : Poll) (userId : Nat)
    (h : pollConsistent p) : pollConsistent (castMembership p userId) := by
  obtain ⟨h1, h2, h3⟩ := h
  unfold castMembership
  by_cases hm : p.votedUsers.contains userId
  · rw [if_pos hm]
    exact ⟨h1, h2, h3⟩
  · rw [if_neg hm]
    refine ⟨h1, ?_, h3⟩
    show p.uniqueVoters + 1 = ((p.votedUsers ++ [userId]).length : Int)
    simp [h2]

theorem castApply_pollConsistent (p : Poll) (userId now i : Nat)
    (hi : i < p.options.length) (hc : pollConsistent p) :
    pollConsistent (castApply p userId now i) := by
  obtain ⟨h1, h2, h3⟩ := hc
  apply castMembership_pollConsistent
  refine ⟨?_, h2, ?_⟩
  · show p.totalVotes + 1 =
      ((modifyAt (bumpOption userId now) i p.options).map (fun o => o.votes)).sum
    rw [sum_map_modifyAt _ _ _ _ hi]
    have hb : (bumpOption userId now (p.options.getD i default)).votes =
        (p.options.getD i default).votes + 1 := rfl
    rw [hb, h1]
    ring
  · intro o hoMem
    have hoMem2 : o ∈ modifyAt (bumpOption userId now) i p.options := hoMem
    rcases mem_modifyAt _ _ _ default _ hoMem2 with ⟨-, heq⟩ | hmem
    · subst heq
      have ho := h3 _ (getD_mem p.options i default hi)
      unfold optionConsistent at ho ⊢
      unfold bumpOption
      simp only [List.length_append, List.length_cons, List.length_nil]
      omega
    · exact h3 _ hmem

theorem retractPollUpdate_pollConsistent (poll : Poll) (vote : Vote)
    (otherVotes now : Nat) (hc : pollConsistent poll)
    (h0 : 0 ≤ vote.optionIndex) (h1 : vote.optionIndex < (poll.options.length : Int))
    (hrec : (poll.options.getD vote.optionIndex.toNat default).voters.countP
              (fun r => r.userId == vote.userId) = 1)
    (husr : poll.votedUsers.count vote.userId = 1) :
    pollConsistent (retractPollUpdate poll vote otherVotes now) := by
  obtain ⟨hT, hU, hO⟩ := hc
  have hi : vote.optionIndex.toNat < poll.options.length := by omega
  have ho := hO _ (getD_mem poll.options vote.optionIndex.toNat default hi)
  unfold optionConsistent at ho
  have hfl := length_filter_not_countP
    ((poll.options.getD vote.optionIndex.toNat default).voters)
    (fun r => r.userId == vote.userId)
  have hstrip : optionConsistent
      (retractOption vote.userId (poll.options.getD vote.optionIndex.toNat default)) := by
    unfold optionConsistent retractOption
    show max 0 ((poll.options.getD vote.optionIndex.toNat default).votes - 1) =
      (((poll.options.getD vote.optionIndex.toNat default).voters.filter
        (fun r => !(r.userId == vote.userId))).length : Int)
    rw [ho]
    rw [max_eq_right (by omega :
      (0 : Int) ≤ ((poll.options.getD vote.optionIndex.toNat default).voters.length : Int) - 1)]
    omega
  have hmono : ∀ x ∈ (poll.options.map (fun o => o.votes)), 0 ≤ x := by
    intro x hx
    rcases List.mem_map.mp hx with ⟨b, hb, hbx⟩
    have hcb := hO b hb
    unfold optionConsistent at hcb
    omega
  have hge1 : 1 ≤ (poll.options.map (fun o => o.votes)).sum := by
    have hmem : (poll.options.getD vote.optionIndex.toNat default).votes ∈
        (poll.options.map (fun o => o.votes)) :=
      List.mem_map.mpr ⟨_, getD_mem _ _ _ hi, rfl⟩
    have hle := List.single_le_sum hmono _ hmem
    omega
  have htot : max 0 (poll.totalVotes - 1) =
      ((modifyAt (retractOption vote.userId) vote.optionIndex.toNat poll.options).map
        (fun o => o.votes)).sum := by
    rw [sum_map_modifyAt _ _ _ _ hi]
    have hrv : (retractOption vote.userId
        (poll.options.getD vote.optionIndex.toNat default)).votes =
        max 0 ((poll.options.getD vote.optionIndex.toNat default).votes - 1) := rfl
    rw [hrv, ho]
    rw [max_eq_right (by omega : (0 : Int) ≤ poll.totalVotes - 1)]
    rw [max_eq_right (by omega :
      (0 : Int) ≤ ((poll.options.getD vote.optionIndex.toNat default).voters.length : Int) - 1)]
    omega
  have hopts : ∀ o ∈ (modifyAt (retractOption vote.userId)
      vote.optionIndex.toNat poll.options), optionConsistent o := by
    intro o hoMem
    rcases mem_modifyAt _ _ _ default _ hoMem with ⟨-, heq⟩ | hmem
    · subst heq
      exact hstrip
    · exact hO _ hmem
  have hflU := length_filter_not_countP poll.votedUsers (fun x => x == vote.userId)
  have husr2 : poll.votedUsers.countP (fun x => x == vote.userId) = 1 := husr
  have hA : retractCounters poll vote =
      { poll with options :=
          modifyAt (retractOption vote.userId) vote.optionIndex.toNat poll.options } := by
    unfold retractCounters
    rw [if_pos ⟨h0, h1⟩]
  unfold retractPollUpdate
  apply statusTransition_pollConsistent
  rw [hA]
  unfold retractTotal retractMembership
  by_cases hov : otherVotes = 0
  · rw [if_pos hov]
    refine ⟨htot, ?_, hopts⟩
    show max 0 (poll.uniqueVoters - 1) =
      ((poll.votedUsers.filter (fun u => !(u == vote.userId))).length : Int)
    rw [hU]
    rw [max_eq_right (by omega :
      (0 : Int) ≤ (poll.votedUsers.length : Int) - 1)]
    omega
  · rw [if_neg hov]
    exact ⟨htot, hU, hopts⟩

theorem deleteVoteHandler_polls (s : ServerState) (voteId now : Nat) (vote : Vote)
    (poll : Poll) (hv : findVoteById s.votes voteId = some vote)
    (hp : lookupPoll s.polls vote.pollId = some poll) :
    (deleteVoteHandler s true voteId now).2.polls =
      updateAssoc s.polls vote.pollId
        (retractPollUpdate poll vote
          (countOtherVotes s.votes vote.pollId vote.userId vote.id) now) := by
  simp only [deleteVoteHandler, hv, hp, Bool.not_true]
  rw [if_neg (fun hh => Bool.noConfusion hh)]
  split <;> rfl

theorem castMembership_options (p : Poll) (userId : Nat) :
    (castMembership p userId).options = p.options := by
  unfold castMembership
  split <;> rfl

theorem castMembership_totalVotes (p : Poll) (userId : Nat) :
    (castMembership p userId).totalVotes = p.totalVotes := by
  unfold castMembership
  split <;> rfl

theorem castMembership_mem_eq (p : Poll) (userId : Nat) (h : userId ∈ p.votedUsers) :
    castMembership p userId = p := by
  unfold castMembership
  rw [if_pos (List.elem_iff.mpr h)]

theorem castMembership_not_mem (p : Poll) (userId : Nat) (h : userId ∉ p.votedUsers) :
    (castMembership p userId).votedUsers = p.votedUsers ++ [userId] ∧
    (castMembership p userId).uniqueVoters = p.uniqueVoters + 1 := by
  unfold castMembership
  rw [if_neg (fun hh => h (List.elem_iff.mp hh))]
  exact ⟨rfl, rfl⟩

theorem retractCounters_totalVotes (poll : Poll) (vote : Vote) :
    (retractCounters poll vote).totalVotes = poll.totalVotes := by
  unfold retractCounters
  split <;> rfl

theorem retractCounters_uniqueVoters (poll : Poll) (vote : Vote) :
    (retractCounters poll vote).uniqueVoters = poll.uniqueVoters := by
  unfold retractCounters
  split <;> rfl

theorem retractCounters_votedUsers (poll : Poll) (vote : Vote) :
    (retractCounters poll vote).votedUsers = poll.votedUsers := by
  unfold retractCounters
  split <;> rfl

theorem retractCounters_options_inRange (poll : Poll) (vote : Vote)
    (h : 0 ≤ vote.optionIndex ∧ vote.optionIndex < (poll.options.length : Int)) :
    (retractCounters poll vote).options =
      modifyAt (retractOption vote.userId) vote.optionIndex.toNat poll.options := by
  unfold retractCounters
  rw [if_pos h]

theorem retractMembership_options (poll : Poll) (userId otherVotes : Nat) :
    (retractMembership poll userId otherVotes).options = poll.options := by
  unfold retractMembership
  split <;> rfl

theorem retractMembership_totalVotes (poll : Poll) (userId otherVotes : Nat) :
    (retractMembership poll userId otherVotes).totalVotes = poll.totalVotes := by
  unfold retractMembership
  split <;> rfl

theorem retractMembership_of_ne (poll : Poll) (userId otherVotes : Nat)
    (h : otherVotes ≠ 0) : retractMembership poll userId otherVotes = poll := by
  unfold retractMembership
  rw [if_neg h]

theorem retractMembership_zero (poll : Poll) (userId : Nat) :
    (retractMembership poll userId 0).votedUsers =
      poll.votedUsers.filter (fun u => !(u == userId)) ∧
    (retractMembership poll userId 0).uniqueVoters = max 0 (poll.uniqueVoters - 1) := by
  unfold retractMembership
  rw [if_pos rfl]
  exact ⟨rfl, rfl⟩

theorem retractPollUpdate_fields (poll : Poll) (vote : Vote) (otherVotes now : Nat)
    (h : 0 ≤ vote.optionIndex ∧ vote.optionIndex < (poll.options.length : Int)) :
    (retractPollUpdate poll vote otherVotes now).options =
      modifyAt (retractOption vote.userId) vote.optionIndex.toNat poll.options ∧
    (retractPollUpdate poll vote otherVotes now).totalVotes = max 0 (poll.totalVotes - 1) ∧
    (otherVotes ≠ 0 →
      (retractPollUpdate poll vote otherVotes now).votedUsers = poll.votedUsers ∧
      (retractPollUpdate poll vote otherVotes now).uniqueVoters = poll.uniqueVoters) ∧
    (otherVotes = 0 →
      (retractPollUpdate poll vote otherVotes now).votedUsers =
        poll.votedUsers.filter (fun u => !(u == vote.userId)) ∧
      (retractPollUpdate poll vote otherVotes now).uniqueVoters =
        max 0 (poll.uniqueVoters - 1)) := by
  obtain ⟨k1, k2, k3, k4, -⟩ := statusTransition_fields now
    (retractMembership (retractTotal (retractCounters poll vote)) vote.userId otherVotes)
  unfold retractPollUpdate
  refine ⟨?_, ?_, ?_, ?_⟩
  · rw [k1, retractMembership_options]
    show (retractCounters poll vote).options = _
    exact retractCounters_options_inRange poll vote h
  · rw [k2, retractMembership_totalVotes]
    show max 0 ((retractCounters poll vote).totalVotes - 1) = _
    rw [retractCounters_totalVotes]
  · intro hne
    constructor
    · rw [k4, retractMembership_of_ne _ _ _ hne]
      show (retractCounters poll vote).votedUsers = _
      exact retractCounters_votedUsers poll vote
    · rw [k3, retractMembership_of_ne _ _ _ hne]
      show (retractCounters poll vote).uniqueVoters = _
      exact retractCounters_uniqueVoters poll vote
  · intro hz
    subst hz
    constructor
    · rw [k4, (retractMembership_zero _ _).1]
      show (retractCounters poll vote).votedUsers.filter _ = _
      rw [retractCounters_votedUsers]
    · rw [k3, (retractMembership_zero _ _).2]
      show max 0 ((retractCounters poll vote).uniqueVoters - 1) = _
      rw [retractCounters_uniqueVoters]

/-! Claim theorems. -/

/-- C2: for every poll, user, and in-range optionIndex, a successful
cast (`addVote`, src/models/Poll.js lines 222-246) increments exactly
the target option's votes counter by one, appends one voter record for
that user to that option, increments `totalVotes` by one, and, only if
the user is not already in `votedUsers`, adds the user there and
increments `uniqueVoters` (when already present, both are
unchanged). -/
theorem C2_addVote_effects (p : Poll) (userId now : Nat) (optionIndex : Int) (q : Poll)
    (h : p.addVote userId now optionIndex = .ok q) :
    0 ≤ optionIndex ∧ optionIndex < (p.options.length : Int) ∧
    castEffects p q userId now optionIndex.toNat := by
  obtain ⟨hcan, h0, h1, heq⟩ := addVote_ok_inv p userId now optionIndex q h
  subst heq
  refine ⟨h0, h1, ?_⟩
  have hi : optionIndex.toNat < p.options.length := by omega
  obtain ⟨f1, f2, f3, f4, -⟩ :=
    statusTransition_fields now (castApply p userId now optionIndex.toNat)
  have hopts : (castApply p userId now optionIndex.toNat).options =
      modifyAt (bumpOption userId now) optionIndex.toNat p.options := by
    unfold castApply
    rw [castMembership_options]
  have htot : (castApply p userId now optionIndex.toNat).totalVotes = p.totalVotes + 1 := by
    unfold castApply
    rw [castMembership_totalVotes]
  unfold castEffects
  rw [f1, f2, f3, f4, hopts, htot]
  refine ⟨length_modifyAt _ _ _, ?_, ?_, ?_, rfl, ?_, ?_⟩
  · rw [getD_modifyAt_self _ _ _ _ hi]
    rfl
  · rw [getD_modifyAt_self _ _ _ _ hi]
    rfl
  · intro j hj
    exact getD_modifyAt_ne _ _ _ _ _ hj
  · intro hmem
    have hc := castMembership_mem_eq
      { p with options := modifyAt (bumpOption userId now) optionIndex.toNat p.options,
               totalVotes := p.totalVotes + 1 } userId hmem
    unfold castApply
    rw [hc]
    exact ⟨rfl, rfl⟩
  · intro hmem
    have hc := castMembership_not_mem
      { p with options := modifyAt (bumpOption userId now) optionIndex.toNat p.options,
               totalVotes := p.totalVotes + 1 } userId hmem
    unfold castApply
    exact hc

/-- Witness for C2: user 3 casts for option 0 of the fresh poll. -/
theorem C2_addVote_effects_witness :
    pollFresh.addVote 3 10 0 = .ok pollFreshAfter ∧
    ((0 : Int) ≤ 0 ∧ (0 : Int) < (pollFresh.options.length : Int) ∧
      castEffects pollFresh pollFreshAfter 3 10 (Int.toNat 0)) :=
  ⟨by decide, C2_addVote_effects pollFresh 3 10 0 pollFreshAfter (by decide)⟩

/-- C3: `canUserVote` (src/models/Poll.js lines 204-219) evaluates its
rules in order with the first failure winning: it rejects with reason
"Poll is not active" exactly when NOT (status is active and startDate
<= now < endDate); otherwise, when the user's prior voter-record count
reaches the quota, it rejects with "Maximum votes per user reached (N)"
where N is the quota; otherwise it allows.  The quota equals
`settings.maxVotesPerUser` whenever that setting is nonzero (the schema
enforces it to be at least 1). -/
theorem C3_canUserVote_rules (p : Poll) (userId now : Nat) :
    (p.canUserVote userId now = { canVote := false, reason := some "Poll is not active" } ↔
      ¬ (p.status = PollStatus.active ∧ p.startDate ≤ now ∧ now < p.endDate)) ∧
    ((p.status = PollStatus.active ∧ p.startDate ≤ now ∧ now < p.endDate) →
      p.maxVotesAllowed ≤ p.userVoteCount userId →
      p.canUserVote userId now =
        { canVote := false,
          reason := some ("Maximum votes per user reached (" ++
            toString p.maxVotesAllowed ++ ")") }) ∧
    ((p.status = PollStatus.active ∧ p.startDate ≤ now ∧ now < p.endDate) →
      p.userVoteCount userId < p.maxVotesAllowed →
      p.canUserVote userId now = { canVote := true, reason := none }) ∧
    (p.settings.maxVotesPerUser ≠ 0 → p.maxVotesAllowed = p.settings.maxVotesPerUser) := by
  by_cases hact : (p.status = PollStatus.active ∧ p.startDate ≤ now ∧ now < p.endDate)
  · have hb : p.isActive now = true := (isActive_iff p now).mpr hact
    have hred : p.canUserVote userId now =
        (if p.userVoteCount userId ≥ p.maxVotesAllowed then
          { canVote := false,
            reason := some ("Maximum votes per user reached (" ++
              toString p.maxVotesAllowed ++ ")") }
         else { canVote := true, reason := none }) := by
      unfold Poll.canUserVote
      rw [if_neg (by simp [hb])]
    refine ⟨?_, ?_, ?_, ?_⟩
    · rw [hred]
      constructor
      · intro hres
        by_cases hq : p.userVoteCount userId ≥ p.maxVotesAllowed
        · rw [if_pos hq] at hres
          have hstr := congrArg CanVoteResult.reason hres
          simp only [Option.some.injEq] at hstr
          exact absurd hstr (reason_strings_ne _)
        · rw [if_neg hq] at hres
          simp at hres
      · intro hna
        exact absurd hact hna
    · intro _ hq
      rw [hred, if_pos hq]
    · intro _ hq
      rw [hred, if_neg (by omega)]
    · intro hz
      unfold Poll.maxVotesAllowed
      rw [if_neg hz]
  · have hb : p.isActive now = false := by
      cases hbv : p.isActive now
      · rfl
      · exact absurd ((isActive_iff p now).mp hbv) hact
    have hred : p.canUserVote userId now =
        { canVote := false, reason := some "Poll is not active" } := by
      unfold Poll.canUserVote
      rw [if_pos (by simp [hb])]
    refine ⟨?_, ?_, ?_, ?_⟩
    · rw [hred]
      exact iff_of_true rfl hact
    · intro ha
      exact absurd ha hact
    · intro ha
      exact absurd ha hact
    · intro hz
      unfold Poll.maxVotesAllowed
      rw [if_neg hz]

/-- Witness for C3: the three outcomes and the quota equation at
concrete polls. -/
theorem C3_canUserVote_rules_witness :
    pollFresh.canUserVote 3 10 = { canVote := true, reason := none } ∧
    pollC10.canUserVote 7 10 = { canVote := false, reason := some "Poll is not active" } ∧
    pollAB.canUserVote 1 10 =
      { canVote := false,
        reason := some ("Maximum votes per user reached (" ++
          toString pollAB.maxVotesAllowed ++ ")") } ∧
    pollFresh.maxVotesAllowed = pollFresh.settings.maxVotesPerUser :=
  ⟨(C3_canUserVote_rules pollFresh 3 10).2.2.1 (by decide) (by decide),
   (C3_canUserVote_rules pollC10 7 10).1.mpr (by decide),
   (C3_canUserVote_rules pollAB 1 10).2.1 (by decide) (by decide),
   (C3_canUserVote_rules pollFresh 0 0).2.2.2 (by decide)⟩

/-- C4: the cast route (src/routes/votes.js lines 14-89) returns 404
when the poll is absent, the eligibility reason when the policy
rejects, and the invalid-option message when the index is out of range,
each while leaving the whole server state (poll collection, ledger,
user histories) untouched; the eligibility rejection is decided before
the range check, so an ineligible user with an out-of-range index gets
the eligibility reason. -/
theorem C4_cast_failure_frame (s : ServerState) (pollId userId : Nat) (optionIndex : Int)
    (now : Nat) :
    (lookupPoll s.polls pollId = none →
      castVoteHandler s pollId userId optionIndex now = (.notFound "Poll not found", s)) ∧
    (∀ poll, lookupPoll s.polls pollId = some poll →
      (poll.canUserVote userId now).canVote = false →
      castVoteHandler s pollId userId optionIndex now =
        (.badRequest ((poll.canUserVote userId now).reason.getD ""), s)) ∧
    (∀ poll, lookupPoll s.polls pollId = some poll →
      (poll.canUserVote userId now).canVote = true →
      (optionIndex < 0 ∨ (poll.options.length : Int) ≤ optionIndex) →
      castVoteHandler s pollId userId optionIndex now =
        (.badRequest "Invalid option selected", s)) := by
  refine ⟨?_, ?_, ?_⟩
  · intro hnone
    simp only [castVoteHandler, hnone]
  · intro poll hsome hcv
    simp only [castVoteHandler, hsome]
    rw [if_pos (by simp [hcv])]
  · intro poll hsome hcv hr
    simp only [castVoteHandler, hsome]
    rw [if_neg (by simp [hcv]), if_pos hr]

/-- Witness for C4: the three failure modes at concrete states; in the
second, user 7 also supplies the out-of-range index 9, and the
eligibility reason wins. -/
theorem C4_cast_failure_frame_witness :
    castVoteHandler emptyState 1 7 0 10 = (.notFound "Poll not found", emptyState) ∧
    castVoteHandler stateC10 1 7 9 10 = (.badRequest "Poll is not active", stateC10) ∧
    castVoteHandler stateC9 1 3 5 10 = (.badRequest "Invalid option selected", stateC9) :=
  ⟨(C4_cast_failure_frame emptyState 1 7 0 10).1 (by decide),
   (C4_cast_failure_frame stateC10 1 7 9 10).2.1 pollC10 (by decide) (by decide),
   (C4_cast_failure_frame stateC9 1 3 5 10).2.2 pollFresh (by decide) (by decide) (by decide)⟩

/-- C7 counterexample: the pre-save hook (src/models/Poll.js lines
189-201) uses the strict comparison `now > endDate`, so at the instant
`now == endDate` (here 100) an active poll is NOT marked completed,
contradicting the claim that it is completed exactly at `endDate`. -/
theorem C7_counterexample :
    pollC7.status = PollStatus.active ∧ pollC7.startDate ≤ 100 ∧ pollC7.endDate = 100 ∧
    (statusTransition 100 pollC7).status = PollStatus.active ∧
    (statusTransition 100 pollC7).status ≠ PollStatus.completed := by decide

/-- C7 amended: for a stored-active poll the pre-save transition yields
draft when `now < startDate` and completed when `now > endDate`
(strictly after; exactly at `now == endDate` the poll is left active);
non-active polls are unchanged, and the transition is idempotent.  The
hypothesis `startDate < endDate` is the schema validation of the
model. -/
theorem C7_amended_statusTransition (p : Poll) (now : Nat)
    (hse : p.startDate < p.endDate) :
    (p.status = PollStatus.active → now < p.startDate →
      (statusTransition now p).status = PollStatus.draft) ∧
    (p.status = PollStatus.active → p.endDate < now →
      (statusTransition now p).status = PollStatus.completed) ∧
    (p.status = PollStatus.active → p.startDate ≤ now → now = p.endDate →
      statusTransition now p = p) ∧
    (p.status ≠ PollStatus.active → statusTransition now p = p) ∧
    statusTransition now (statusTransition now p) = statusTransition now p := by
  refine ⟨?_, ?_, ?_, ?_, ?_⟩
  · intro h1 h2
    unfold statusTransition
    rw [if_pos h1, if_pos h2]
  · intro h1 h2
    unfold statusTransition
    rw [if_pos h1, if_neg (by omega), if_pos (by omega)]
  · intro h1 h2 h3
    unfold statusTransition
    rw [if_pos h1, if_neg (by omega), if_neg (by omega)]
  · intro h1
    unfold statusTransition
    rw [if_neg h1]
  · have key : statusTransition now p = p ∨
        (statusTransition now p).status ≠ PollStatus.active := by
      unfold statusTransition
      by_cases h1 : p.status = PollStatus.active
      · rw [if_pos h1]
        by_cases h2 : now < p.startDate
        · rw [if_pos h2]
          right
          simp
        · rw [if_neg h2]
          by_cases h3 : now > p.endDate
          · rw [if_pos h3]
            right
            simp
          · rw [if_neg h3]
            left
            rfl
      · rw [if_neg h1]
        left
        rfl
    rcases key with hk | hk
    · rw [hk]
      exact hk
    · exact statusTransition_of_ne now _ hk

/-- Witness for C7 amended: the draft case, the strictly-after case,
the boundary case, and idempotence at the fixture polls. -/
theorem C7_amended_statusTransition_witness :
    (statusTransition 2 pollC7b).status = PollStatus.draft ∧
    (statusTransition 101 pollC7).status = PollStatus.completed ∧
    statusTransition 100 pollC7 = pollC7 ∧
    statusTransition 101 (statusTransition 101 pollC7) = statusTransition 101 pollC7 :=
  ⟨(C7_amended_statusTransition pollC7b 2 (by decide)).1 (by decide) (by decide),
   (C7_amended_statusTransition pollC7 101 (by decide)).2.1 (by decide) (by decide),
   (C7_amended_statusTransition pollC7 100 (by decide)).2.2.1 (by decide) (by decide) (by decide),
   (C7_amended_statusTransition pollC7 101 (by decide)).2.2.2.2⟩

/-- C8: `getResults` (src/models/Poll.js lines 249-266) reports for
every option the percentage `votes/totalVotes*100` rounded to two
decimals when `totalVotes > 0` and `0` otherwise; on the 3-vote/1-vote
fixture it reports totalVotes 4 and percentages "75.00" and "25.00",
and on a vote-less poll every percentage is "0". -/
theorem C8_getResults_percentage (p : Poll) (now : Nat) :
    (p.getResults now).totalVotes = p.totalVotes ∧
    ((p.getResults now).results.map (fun r => r.percentage) =
      p.options.map (fun o =>
        if p.totalVotes > 0 then jsToFixed2 (100 * o.votes.toNat) p.totalVotes.toNat
        else "0")) ∧
    (pollAB.getResults 0).totalVotes = 4 ∧
    (pollAB.getResults 0).results.map (fun r => r.percentage) = ["75.00", "25.00"] ∧
    (pollZero.getResults 0).results.map (fun r => r.percentage) = ["0", "0"] := by
  refine ⟨rfl, ?_, by decide, by decide, by decide⟩
  unfold Poll.getResults
  simp only [List.map_map]
  rfl

/-- C9 counterexample: the 201 payload of a successful cast
(src/routes/votes.js lines 76-84) carries the poll id, option index,
option text, and timestamp, but NOT the persisted ledger entry's own
unique id: at this input the new ledger entry has id 42 while no
component of the payload equals 42. -/
theorem C9_counterexample :
    (castVoteHandler stateC9 1 3 0 10).1 =
      CastResult.created { pollId := 1, optionIndex := 0, optionText := "Red", votedAt := 10 } ∧
    ((castVoteHandler stateC9 1 3 0 10).2.votes.map (fun v => v.id)) = [42] ∧
    (1 : Nat) ≠ 42 ∧ (0 : Int) ≠ 42 ∧ (10 : Nat) ≠ 42 ∧ "Red" ≠ "42" := by decide

/-- C9 amended: a successful cast appends exactly one ledger entry
(with the next fresh id) and returns the poll's id, the optionIndex,
the chosen option's text, and the entry's cast timestamp; the entry's
own id is not part of the payload. -/
theorem C9_amended_cast_response (s : ServerState) (pollId userId : Nat) (oi : Int)
    (now : Nat) (resp : CastResponse) (s1 : ServerState) (poll : Poll)
    (hlook : lookupPoll s.polls pollId = some poll)
    (h : castVoteHandler s pollId userId oi now = (.created resp, s1)) :
    ∃ v : Vote, s1.votes = s.votes ++ [v] ∧ v.id = s.nextVoteId ∧
      resp.pollId = pollId ∧ resp.optionIndex = oi ∧
      resp.optionText = v.optionText ∧ resp.votedAt = v.createdAt := by
  obtain ⟨-, -, -, hresp, hs1⟩ :=
    castVoteHandler_created_inv s pollId userId oi now resp s1 poll hlook h
  subst hresp
  subst hs1
  exact ⟨_, rfl, rfl, rfl, rfl, rfl, rfl⟩

/-- Witness for C9 amended: the concrete cast of user 3 on the fresh
poll. -/
theorem C9_amended_cast_response_witness :
    lookupPoll stateC9.polls 1 = some pollFresh ∧
    castVoteHandler stateC9 1 3 0 10 = (.created respC9, stateC9after) ∧
    (∃ v : Vote, stateC9after.votes = stateC9.votes ++ [v] ∧ v.id = stateC9.nextVoteId ∧
      respC9.pollId = 1 ∧ respC9.optionIndex = 0 ∧
      respC9.optionText = v.optionText ∧ respC9.votedAt = v.createdAt) :=
  ⟨by decide, by decide,
   C9_amended_cast_response stateC9 1 3 0 10 respC9 stateC9after pollFresh
     (by decide) (by decide)⟩

/-- C10: at `stateC10` (vote 5 is user 7's only vote in poll 1 and its
optionIndex 9 is out of range) the delete route saves the poll with
`totalVotes` decremented, options untouched, and the membership
adjustment applied, but then evaluates `User.findByIdAndUpdate` with
`User` never imported (src/routes/votes.js line 278), so the request
fails with a 500 and the ledger entry is never deleted — the claimed
deletion does not happen. -/
theorem C10_retract_crash :
    (deleteVoteHandler stateC10 true 5 20).1 = RetractResult.serverError "User is not defined" ∧
    findVoteById (deleteVoteHandler stateC10 true 5 20).2.votes 5 = some voteC10 ∧
    lookupPoll (deleteVoteHandler stateC10 true 5 20).2.polls 1 =
      some { pollC10 with totalVotes := 0, uniqueVoters := 0, votedUsers := [] } := by decide

/-- C1 counterexample: `stateC1` satisfies all three invariants (user 7
holds two accepted votes on option 0, quota 3), yet retracting one of
them leaves option 0 with counter 1 and zero voter records, because the
delete route's filter (src/routes/votes.js lines 244-246) removes every
record of the user while decrementing the counter by only one — the
per-option invariant `votes == |voter records|` is broken. -/
theorem C1_counterexample :
    pollConsistent pollC1 ∧ stateConsistent stateC1 ∧
    (deleteVoteHandler stateC1 true 5 20).1 = RetractResult.ok "Vote deleted successfully" ∧
    lookupPoll (deleteVoteHandler stateC1 true 5 20).2.polls 1 = some pollC1retracted ∧
    ¬ pollConsistent pollC1retracted := by decide

/-- C1 amended: a cast through the vote route always preserves the
three invariants; the retraction preserves them provided the retracted
vote's optionIndex is a valid index, the target option holds exactly
one voter record of that user, and `votedUsers` lists that user exactly
once (as is the case for states produced by casts under quota 1). -/
theorem C1_amended_invariants (s : ServerState) (pollId userId : Nat) (optionIndex : Int)
    (now : Nat) (isAdmin : Bool) (voteId now2 : Nat) (hs : stateConsistent s) :
    stateConsistent (castVoteHandler s pollId userId optionIndex now).2 ∧
    (∀ vote poll, findVoteById s.votes voteId = some vote →
      lookupPoll s.polls vote.pollId = some poll →
      0 ≤ vote.optionIndex → vote.optionIndex < (poll.options.length : Int) →
      (poll.options.getD vote.optionIndex.toNat default).voters.countP
        (fun r => r.userId == vote.userId) = 1 →
      poll.votedUsers.count vote.userId = 1 →
      stateConsistent (deleteVoteHandler s isAdmin voteId now2).2) := by
  constructor
  · cases hl : lookupPoll s.polls pollId with
    | none =>
      simp only [castVoteHandler, hl]
      exact hs
    | some poll =>
      by_cases hcv : (poll.canUserVote userId now).canVote = true
      · by_cases hr : optionIndex < 0 ∨ (poll.options.length : Int) ≤ optionIndex
        · simp only [castVoteHandler, hl]
          rw [if_neg (by simp [hcv]), if_pos hr]
          exact hs
        · push_neg at hr
          simp only [castVoteHandler, hl]
          rw [if_neg (by simp [hcv]), if_neg (by omega)]
          rw [addVote_ok poll userId now optionIndex hcv hr.1 hr.2]
          dsimp only
          intro kp hkp
          rcases mem_updateAssoc _ _ _ _ hkp with hkp1 | hkp1
          · subst hkp1
            apply statusTransition_pollConsistent
            apply castApply_pollConsistent
            · omega
            · exact hs _ (lookupPoll_mem _ _ _ hl)
          · exact hs _ hkp1
      · have hf : (poll.canUserVote userId now).canVote = false := by
          revert hcv
          cases (poll.canUserVote userId now).canVote <;> simp
        simp only [castVoteHandler, hl]
        rw [if_pos (by simp [hf])]
        exact hs
  · intro vote poll hfind hlp h0 h1 hrec husr
    cases isAdmin with
    | false =>
      simp only [deleteVoteHandler]
      rw [if_pos (by decide)]
      exact hs
    | true =>
      have hpolls := deleteVoteHandler_polls s voteId now2 vote poll hfind hlp
      intro kp hkp
      rw [hpolls] at hkp
      rcases mem_updateAssoc _ _ _ _ hkp with hkp1 | hkp1
      · subst hkp1
        exact retractPollUpdate_pollConsistent poll vote _ now2
          (hs _ (lookupPoll_mem _ _ _ hlp)) h0 h1 hrec husr
      · exact hs _ hkp1

/-- Witness for C1 amended: the single-vote state `stateW1` satisfies
the invariants and both operations preserve them. -/
theorem C1_amended_invariants_witness :
    stateConsistent stateW1 ∧
    stateConsistent (castVoteHandler stateW1 1 8 1 10).2 ∧
    stateConsistent (deleteVoteHandler stateW1 true 5 20).2 :=
  ⟨by decide,
   (C1_amended_invariants stateW1 1 8 1 10 true 5 20 (by decide)).1,
   (C1_amended_invariants stateW1 1 8 1 10 true 5 20 (by decide)).2 voteW1 pollW1
     (by decide) (by decide) (by decide) (by decide) (by decide) (by decide)⟩

/-- C5: for a poll state whose counters respect the schema floors and
whose `votedUsers` membership for the voting user agrees with the
ledger, a single successful cast followed by the retraction of its
ledger entry restores the target option's votes counter, `totalVotes`,
`uniqueVoters`, and the user's membership in `votedUsers` exactly to
their pre-cast values (the freshness hypothesis says the next ledger id
is unused, as the persistence layer guarantees). -/
theorem C5_retract_reverses_cast (s : ServerState) (pollId userId : Nat)
    (optionIndex : Int) (now now2 : Nat) (poll : Poll) (resp : CastResponse)
    (s1 : ServerState)
    (hlook : lookupPoll s.polls pollId = some poll)
    (hcast : castVoteHandler s pollId userId optionIndex now = (.created resp, s1))
    (hT : 0 ≤ poll.totalVotes) (hU : 0 ≤ poll.uniqueVoters)
    (hV : 0 ≤ (poll.options.getD optionIndex.toNat default).votes)
    (hmem : userId ∈ poll.votedUsers ↔
      s.votes.any (fun v => v.pollId == pollId && v.userId == userId) = true)
    (hfresh : ∀ v ∈ s.votes, v.id ≠ s.nextVoteId) :
    ∃ poll2,
      lookupPoll (deleteVoteHandler s1 true s.nextVoteId now2).2.polls pollId = some poll2 ∧
      (poll2.options.getD optionIndex.toNat default).votes =
        (poll.options.getD optionIndex.toNat default).votes ∧
      poll2.totalVotes = poll.totalVotes ∧
      poll2.uniqueVoters = poll.uniqueVoters ∧
      (userId ∈ poll2.votedUsers ↔ userId ∈ poll.votedUsers) := by
  obtain ⟨hcan, h0, h1, hresp, hs1⟩ :=
    castVoteHandler_created_inv s pollId userId optionIndex now resp s1 poll hlook hcast
  have hi : optionIndex.toNat < poll.options.length := by omega
  have hs1v : s1.votes = s.votes ++ [mkVote s pollId userId optionIndex now poll] := by
    rw [hs1]
  have hs1p : s1.polls =
      updateAssoc s.polls pollId
        (statusTransition now (castApply poll userId now optionIndex.toNat)) := by
    rw [hs1]
  have hfindS : findVoteById s1.votes s.nextVoteId =
      some (mkVote s pollId userId optionIndex now poll) := by
    rw [hs1v]
    exact findVoteById_append_fresh _ _ _ hfresh rfl
  have hlpS : lookupPoll s1.polls (mkVote s pollId userId optionIndex now poll).pollId =
      some (statusTransition now (castApply poll userId now optionIndex.toNat)) := by
    show lookupPoll s1.polls pollId = _
    rw [hs1p]
    exact lookupPoll_updateAssoc_self _ _ _ _ hlook
  have hpolls := deleteVoteHandler_polls s1 s.nextVoteId now2
    (mkVote s pollId userId optionIndex now poll)
    (statusTransition now (castApply poll userId now optionIndex.toNat)) hfindS hlpS
  have hcount : countOtherVotes s1.votes
      (mkVote s pollId userId optionIndex now poll).pollId
      (mkVote s pollId userId optionIndex now poll).userId
      (mkVote s pollId userId optionIndex now poll).id =
      (s.votes.filter (fun v => v.pollId == pollId && v.userId == userId)).length := by
    rw [hs1v]
    show countOtherVotes (s.votes ++ [mkVote s pollId userId optionIndex now poll])
      pollId userId (mkVote s pollId userId optionIndex now poll).id = _
    exact countOtherVotes_append_fresh s.votes _ pollId userId hfresh
  obtain ⟨g1, g2, g3, g4, -⟩ :=
    statusTransition_fields now (castApply poll userId now optionIndex.toNat)
  have hcaOpts : (castApply poll userId now optionIndex.toNat).options =
      modifyAt (bumpOption userId now) optionIndex.toNat poll.options := by
    unfold castApply
    rw [castMembership_options]
  have hcaTot : (castApply poll userId now optionIndex.toNat).totalVotes =
      poll.totalVotes + 1 := by
    unfold castApply
    rw [castMembership_totalVotes]
  have hpaOpts :
      (statusTransition now (castApply poll userId now optionIndex.toNat)).options =
        modifyAt (bumpOption userId now) optionIndex.toNat poll.options := by
    rw [g1, hcaOpts]
  have hpaTot :
      (statusTransition now (castApply poll userId now optionIndex.toNat)).totalVotes =
        poll.totalVotes + 1 := by
    rw [g2, hcaTot]
  have hrange : 0 ≤ (mkVote s pollId userId optionIndex now poll).optionIndex ∧
      (mkVote s pollId userId optionIndex now poll).optionIndex <
        (((statusTransition now (castApply poll userId now optionIndex.toNat)).options.length :
          Int)) := by
    refine ⟨h0, ?_⟩
    show optionIndex < _
    rw [hpaOpts, length_modifyAt]
    exact h1
  obtain ⟨r1, r2, r3, r4⟩ := retractPollUpdate_fields
    (statusTransition now (castApply poll userId now optionIndex.toNat))
    (mkVote s pollId userId optionIndex now poll)
    (countOtherVotes s1.votes (mkVote s pollId userId optionIndex now poll).pollId
      (mkVote s pollId userId optionIndex now poll).userId
      (mkVote s pollId userId optionIndex now poll).id) now2 hrange
  have hboth : (retractPollUpdate
      (statusTransition now (castApply poll userId now optionIndex.toNat))
      (mkVote s pollId userId optionIndex now poll)
      (countOtherVotes s1.votes (mkVote s pollId userId optionIndex now poll).pollId
        (mkVote s pollId userId optionIndex now poll).userId
        (mkVote s pollId userId optionIndex now poll).id) now2).uniqueVoters =
        poll.uniqueVoters ∧
      (userId ∈ (retractPollUpdate
        (statusTransition now (castApply poll userId now optionIndex.toNat))
        (mkVote s pollId userId optionIndex now poll)
        (countOtherVotes s1.votes (mkVote s pollId userId optionIndex now poll).pollId
          (mkVote s pollId userId optionIndex now poll).userId
          (mkVote s pollId userId optionIndex now poll).id) now2).votedUsers ↔
        userId ∈ poll.votedUsers) := by
    by_cases hc : userId ∈ poll.votedUsers
    · have hceq : castApply poll userId now optionIndex.toNat =
          { poll with options := modifyAt (bumpOption userId now) optionIndex.toNat poll.options,
                      totalVotes := poll.totalVotes + 1 } := by
        unfold castApply
        exact castMembership_mem_eq _ _ hc
      have hcaV : (castApply poll userId now optionIndex.toNat).votedUsers =
          poll.votedUsers := by
        rw [hceq]
      have hcaU : (castApply poll userId now optionIndex.toNat).uniqueVoters =
          poll.uniqueVoters := by
        rw [hceq]
      have hcne : countOtherVotes s1.votes
          (mkVote s pollId userId optionIndex now poll).pollId
          (mkVote s pollId userId optionIndex now poll).userId
          (mkVote s pollId userId optionIndex now poll).id ≠ 0 := by
        rw [hcount]
        rcases List.any_eq_true.mp (hmem.mp hc) with ⟨v, hv, hp⟩
        have hvf : v ∈ s.votes.filter (fun v => v.pollId == pollId && v.userId == userId) :=
          List.mem_filter.mpr ⟨hv, hp⟩
        have hpos := List.length_pos_of_mem hvf
        omega
      obtain ⟨e1, e2⟩ := r3 hcne
      constructor
      · rw [e2, g3, hcaU]
      · rw [e1, g4, hcaV]
    · have hveq := castMembership_not_mem
        { poll with options := modifyAt (bumpOption userId now) optionIndex.toNat poll.options,
                    totalVotes := poll.totalVotes + 1 } userId hc
      have hcaV : (castApply poll userId now optionIndex.toNat).votedUsers =
          poll.votedUsers ++ [userId] := hveq.1
      have hcaU : (castApply poll userId now optionIndex.toNat).uniqueVoters =
          poll.uniqueVoters + 1 := hveq.2
      have hcz : countOtherVotes s1.votes
          (mkVote s pollId userId optionIndex now poll).pollId
          (mkVote s pollId userId optionIndex now poll).userId
          (mkVote s pollId userId optionIndex now poll).id = 0 := by
        rw [hcount]
        have hnone : s.votes.filter (fun v => v.pollId == pollId && v.userId == userId) = [] := by
          apply List.filter_eq_nil_iff.mpr
          intro v hv hp
          exact hc (hmem.mpr (List.any_eq_true.mpr ⟨v, hv, hp⟩))
        rw [hnone]
        rfl
      obtain ⟨e1, e2⟩ := r4 hcz
      have hfilterEq :
          (statusTransition now (castApply poll userId now optionIndex.toNat)).votedUsers.filter
            (fun u => !(u == userId)) = poll.votedUsers := by
        rw [g4, hcaV, List.filter_append, filter_ne_self _ _ hc]
        simp
      constructor
      · rw [e2, g3, hcaU]
        have hone : poll.uniqueVoters + 1 - 1 = poll.uniqueVoters := by ring
        rw [hone, max_eq_right hU]
      · rw [e1]
        show userId ∈
          (statusTransition now (castApply poll userId now optionIndex.toNat)).votedUsers.filter
            (fun u => !(u == userId)) ↔ userId ∈ poll.votedUsers
        rw [hfilterEq]
  refine ⟨retractPollUpdate
      (statusTransition now (castApply poll userId now optionIndex.toNat))
      (mkVote s pollId userId optionIndex now poll)
      (countOtherVotes s1.votes (mkVote s pollId userId optionIndex now poll).pollId
        (mkVote s pollId userId optionIndex now poll).userId
        (mkVote s pollId userId optionIndex now poll).id) now2, ?_, ?_, ?_,
    hboth.1, hboth.2⟩
  · rw [hpolls]
    exact lookupPoll_updateAssoc_self _ _ _ _ hlpS
  · rw [r1]
    show ((modifyAt (retractOption userId) optionIndex.toNat
        (statusTransition now (castApply poll userId now optionIndex.toNat)).options).getD
        optionIndex.toNat default).votes = _
    rw [hpaOpts]
    rw [getD_modifyAt_self _ _ _ _ (by rw [length_modifyAt]; exact hi)]
    rw [getD_modifyAt_self _ _ _ _ hi]
    show max 0 ((poll.options.getD optionIndex.toNat default).votes + 1 - 1) = _
    have hone : (poll.options.getD optionIndex.toNat default).votes + 1 - 1 =
        (poll.options.getD optionIndex.toNat default).votes := by ring
    rw [hone, max_eq_right hV]
  · rw [r2, hpaTot]
    have hone : poll.totalVotes + 1 - 1 = poll.totalVotes := by ring
    rw [hone, max_eq_right hT]

/-- Witness for C5: user 3 casts on the fresh poll, then the vote
(ledger id 42) is retracted; every counter returns to its pre-cast
value. -/
theorem C5_retract_reverses_cast_witness :
    lookupPoll stateC9.polls 1 = some pollFresh ∧
    castVoteHandler stateC9 1 3 0 10 = (.created respC9, stateC9after) ∧
    (∃ poll2,
      lookupPoll (deleteVoteHandler stateC9after true stateC9.nextVoteId 20).2.polls 1 =
        some poll2 ∧
      (poll2.options.getD (Int.toNat 0) default).votes =
        (pollFresh.options.getD (Int.toNat 0) default).votes ∧
      poll2.totalVotes = pollFresh.totalVotes ∧
      poll2.uniqueVoters = pollFresh.uniqueVoters ∧
      (3 ∈ poll2.votedUsers ↔ 3 ∈ pollFresh.votedUsers)) :=
  ⟨by decide, by decide,
   C5_retract_reverses_cast stateC9 1 3 0 10 20 pollFresh respC9 stateC9after
     (by decide) (by decide) (by decide) (by decide) (by decide) (by decide) (by decide)⟩


end PollHub
